import Mathlib

/-!
Verification of the smart-asset-allocator backend against its
natural-language specification.

The Python sources under backend/app are shallowly embedded: machine
floats become rationals, numpy/pandas/pypfopt calls that are pure
arithmetic are reimplemented over the rationals, and genuinely external
or transcendental operations (float exp, log10, sqrt, the pypfopt
solvers, the numpy normal generator) are passed in as explicit function
parameters since each of them is a deterministic function at the Python
level.  Fallible code returns Except or Option, mutable process state
(the numpy global RNG, the provider-call counter) is threaded
explicitly.
-/

namespace SmartAllocator

/-! ### Python numeric helpers -/

/-- Python's builtin round: round-half-to-even on the shifted value. -/
def roundHalfEven (x : ℚ) : ℤ :=
  let n : ℤ := ⌊x⌋
  let f : ℚ := x - n
  if f < 1/2 then n
  else if 1/2 < f then n + 1
  else if n % 2 = 0 then n else n + 1

/-- round(x, d) from Python, on rationals. -/
def pyRound (d : ℕ) (x : ℚ) : ℚ :=
  (roundHalfEven (x * 10 ^ d) : ℚ) / 10 ^ d

/-- Python truthiness of an optional float: None and 0.0 are falsy. -/
def truthyFloat : Option ℚ → Bool
  | none => false
  | some x => x != 0

/-- Insertion step of a comparison sort (models Python sorted / list.sort). -/
def insertSorted (le : α → α → Bool) (x : α) : List α → List α
  | [] => [x]
  | y :: ys => if le x y then x :: y :: ys else y :: insertSorted le x ys

/-- Comparison sort used wherever the source sorts a list. -/
def sortBy (le : α → α → Bool) (xs : List α) : List α :=
  xs.foldr (insertSorted le) []

/-- Prefix sums along one row (np.cumsum on axis=1, one row). -/
def cumsumList : List ℚ → List ℚ :=
  go 0
where
  go (acc : ℚ) : List ℚ → List ℚ
    | [] => []
    | x :: xs => (acc + x) :: go (acc + x) xs

/-- Running products of one series (pandas Series.cumprod). -/
def cumprodFrom (acc : ℚ) : List ℚ → List ℚ
  | [] => []
  | x :: xs => (acc * x) :: cumprodFrom (acc * x) xs

/-- Tail of the running maximum, seeded with the values seen so far. -/
def runMaxFrom (m : ℚ) : List ℚ → List ℚ
  | [] => []
  | x :: xs => max m x :: runMaxFrom (max m x) xs

/-- Running maximum of a series (pandas Series.expanding().max()). -/
def runningMax : List ℚ → List ℚ
  | [] => []
  | x :: xs => x :: runMaxFrom x xs

/-- Arithmetic mean of a list; pandas mean of an empty series is NaN,
which no claim touches, so the empty case is 0 here. -/
def listMean (xs : List ℚ) : ℚ :=
  xs.sum / xs.length

/-- Minimum of a list, pandas Series.min on a non-empty series
(0 on the empty series, which no claim touches). -/
def listMin : List ℚ → ℚ
  | [] => 0
  | x :: xs => xs.foldl min x

/-- Maximum of a list, same convention as listMin. -/
def listMax : List ℚ → ℚ
  | [] => 0
  | x :: xs => xs.foldl max x

/-! ### Market Data Service: per-asset statistics
(backend/app/services/market_data_service.py, _calculate_asset_statistics) -/

/-- Drawdown series: cumulative = (1 + log_returns).cumprod(),
rolling_max = cumulative.expanding().max(),
drawdowns = (cumulative - rolling_max) / rolling_max. -/
def drawdowns (logReturns : List ℚ) : List ℚ :=
  let cumulative := cumprodFrom 1 (logReturns.map (fun r => 1 + r))
  let rollingMax := runningMax cumulative
  List.zipWith (fun c m => (c - m) / m) cumulative rollingMax

/-- max_drawdown = drawdowns.min() from the source. -/
def maxDrawdown (logReturns : List ℚ) : ℚ :=
  listMin (drawdowns logReturns)

/-- pandas Series.dropna: the non-missing values of a column. -/
def dropna (prices : List (Option ℚ)) : List ℚ :=
  prices.filterMap id

/-- last element with a default (Series.iloc[-1] on a known-nonempty series). -/
def lastD (xs : List ℚ) (d : ℚ) : ℚ :=
  xs.getLastD d

/-- The raw 1-year price change local variable of
_calculate_asset_statistics: computed only when
len(prices.dropna()) > trading_days (252), using iloc[-252]. -/
def priceChange1yRaw (prices : List (Option ℚ)) : Option ℚ :=
  let p := dropna prices
  if 252 < p.length then
    let lastPrice := lastD p 0
    let price1yAgo := p.getD (p.length - 252) 0
    some ((lastPrice - price1yAgo) / price1yAgo)
  else
    none

/-- The reported price_change_1y field:
`round(price_change_1y * 100, 2) if price_change_1y else None`.
Python truthiness makes both None and an exact 0.0 produce None. -/
def priceChange1yField (prices : List (Option ℚ)) : Option ℚ :=
  match priceChange1yRaw prices with
  | none => none
  | some c => if c = 0 then none else some (pyRound 2 (c * 100))

/-- The spec's formula for the 1-year change, stated from its words for
comparison with the code's field: (last price - price 252 observations
prior) / that prior price, over the non-missing observations. -/
def specPriceChange1y (prices : List (Option ℚ)) : ℚ :=
  let p := dropna prices
  (lastD p 0 - p.getD (p.length - 252) 0) / p.getD (p.length - 252) 0

/-- Sample standard deviation (pandas Series.std, ddof = 1), with the
float square root passed in as a function parameter. -/
def sampleStd (sqrtq : ℚ → ℚ) (xs : List ℚ) : ℚ :=
  let m := listMean xs
  let n := xs.length
  if n ≤ 1 then 0
  else sqrtq ((xs.map (fun x => (x - m) ^ 2)).sum / (n - 1))

/-- AssetStatistics record as produced by the service (per-cent fields
already rounded exactly as in the source). -/
structure AssetStatistics where
  ticker : String
  annualizedReturn : ℚ
  annualizedVolatility : ℚ
  sharpeRatio : ℚ
  maxDrawdownPct : ℚ
  lastPrice : ℚ
  priceChange1y : Option ℚ
deriving Repr, DecidableEq

/-- _calculate_asset_statistics: annualization by 252, Sharpe with rf = 0,
max drawdown over the cumulative index, last price and the 1-year change. -/
def calculateAssetStatistics (sqrtq : ℚ → ℚ) (ticker : String)
    (prices : List (Option ℚ)) (logReturns : List ℚ) : AssetStatistics :=
  let meanDailyReturn := listMean logReturns
  let dailyVolatility := sampleStd sqrtq logReturns
  let annualizedReturn := meanDailyReturn * 252
  let annualizedVolatility := dailyVolatility * sqrtq 252
  let sharpeRatio :=
    if 0 < annualizedVolatility then annualizedReturn / annualizedVolatility else 0
  let maxDd := maxDrawdown logReturns
  let lastPrice := lastD (dropna prices) 0
  { ticker := ticker
    annualizedReturn := pyRound 2 (annualizedReturn * 100)
    annualizedVolatility := pyRound 2 (annualizedVolatility * 100)
    sharpeRatio := pyRound 3 sharpeRatio
    maxDrawdownPct := pyRound 2 (maxDd * 100)
    lastPrice := pyRound 2 lastPrice
    priceChange1y := priceChange1yField prices }

/-! ### Market Data Service: get_market_data pipeline
(backend/app/services/market_data_service.py).  The external provider
download (_download_prices / yfinance) is an oracle parameter; the
number of provider hits is threaded as an explicit counter since the
source method body neither consults nor fills any cache (the
cache_response decorator of core/cache.py is applied to nothing). -/

/-- Timeframe enum values (models/enums.py, TimeframePreset). -/
inductive Timeframe where
  | oneYear
  | threeYears
  | fiveYears
  | maxTf
deriving Repr, DecidableEq

/-- TIMEFRAME_MAPPING of the service, in days. -/
def timeframeDays : Timeframe → ℕ
  | .oneYear => 365
  | .threeYears => 365 * 3
  | .fiveYears => 365 * 5
  | .maxTf => 365 * 10

/-- Domain-error kinds relevant to the market data pipeline
(core/exceptions.py). -/
inductive MarketDataError where
  | marketData (message : String)
  | invalidTicker (tickers : String)
  | insufficientData (ticker : String) (required available : ℕ)
deriving Repr, DecidableEq

/-- A downloaded price table: one column per resolved ticker, missing
cells as none (a pandas DataFrame column after dropna(how=all)). -/
abbrev PriceTable := List (String × List (Option ℚ))

/-- Column lookup in the downloaded table. -/
def colOf (table : PriceTable) (ticker : String) : Option (List (Option ℚ)) :=
  (table.find? (fun c => c.1 == ticker)).map (·.2)

/-- _validate_data_sufficiency: tickers absent from the columns are
batched into one invalid-ticker error, but the first ticker seen with
fewer than min_days (245) non-missing rows raises immediately. -/
def validateDataSufficiency (table : PriceTable) (tickers : List String)
    (minDays : ℕ := 245) : Except MarketDataError Unit := do
  let mut invalid : List String := []
  for ticker in tickers do
    match colOf table ticker with
    | none => invalid := invalid ++ [ticker]
    | some col =>
      let available := (dropna col).length
      if available < minDays then
        throw (.insufficientData ticker minDays available)
  if !invalid.isEmpty then
    throw (.invalidTicker (String.intercalate ", " invalid))

/-- _calculate_log_returns on one column: log(p / p.shift(1)).dropna(),
with the float log passed in as a parameter. -/
def logReturnsCol (logq : ℚ → ℚ) (prices : List ℚ) : List ℚ :=
  List.zipWith (fun prev cur => logq (cur / prev)) prices prices.tail

/-- Response shape of get_market_data (models/schemas.py,
MarketDataResponse), with the matrix entries left to the two oracle
parameters of the run function below. -/
structure MarketDataResult where
  tickers : List String
  statistics : List (String × AssetStatistics)
  covarianceMatrix : List (String × List (String × ℚ))
  correlationMatrix : List (String × List (String × ℚ))
  logReturnsSample : List (String × List ℚ)
  tradingDays : ℕ
deriving Repr, DecidableEq

/-- Sample covariance of two equal-length columns (pandas cov, ddof 1). -/
def sampleCovPair (xs ys : List ℚ) : ℚ :=
  let n := xs.length
  let mx := listMean xs
  let my := listMean ys
  if n ≤ 1 then 0
  else ((List.zipWith (fun x y => (x - mx) * (y - my)) xs ys).sum) / (n - 1)

/-- log_returns.cov() * trading_days over the column list. -/
def covarianceMatrixOf (cols : List (String × List ℚ)) :
    List (String × List (String × ℚ)) :=
  cols.map (fun c => (c.1, cols.map (fun d => (d.1, sampleCovPair c.2 d.2 * 252))))

/-- log_returns.corr() over the column list (float sqrt as parameter). -/
def correlationMatrixOf (sqrtq : ℚ → ℚ) (cols : List (String × List ℚ)) :
    List (String × List (String × ℚ)) :=
  cols.map (fun c =>
    (c.1, cols.map (fun d =>
      (d.1, sampleCovPair c.2 d.2 / (sampleStd sqrtq c.2 * sampleStd sqrtq d.2)))))

/-- Body of get_market_data, after a successful download: log returns,
the two matrices, per-ticker statistics, the 30-day sample. -/
def buildMarketDataResult (sqrtq logq : ℚ → ℚ) (tickers : List String)
    (table : PriceTable) : MarketDataResult :=
  let returnCols := table.map (fun c => (c.1, logReturnsCol logq (dropna c.2)))
  let statistics := (tickers.filterMap (fun t =>
    match colOf table t, (returnCols.find? (fun c => c.1 == t)) with
    | some prices, some rc => some (t, calculateAssetStatistics sqrtq t prices rc.2)
    | _, _ => none))
  { tickers := statistics.map (·.1)
    statistics := statistics
    covarianceMatrix := covarianceMatrixOf returnCols
    correlationMatrix := correlationMatrixOf sqrtq returnCols
    logReturnsSample := returnCols.map (fun c => (c.1, c.2.drop (c.2.length - 30)))
    tradingDays := (table.headD ("", [])).2.length }

/-- One call of MarketDataService.get_market_data as the source stands:
the provider download runs unconditionally (the fetch counter always
increments) and no cache is read or written before returning. -/
def getMarketDataRun (sqrtq logq : ℚ → ℚ)
    (download : List String → Timeframe → Except String PriceTable)
    (fetchCount : ℕ) (tickers : List String) (timeframe : Timeframe) :
    Except MarketDataError MarketDataResult × ℕ :=
  let fetched := download tickers timeframe
  let result : Except MarketDataError MarketDataResult := do
    let table ← match fetched with
      | .error e => throw (.marketData e)
      | .ok table => pure table
    validateDataSufficiency table tickers
    pure (buildMarketDataResult sqrtq logq tickers table)
  (result, fetchCount + 1)

/-! ### Response cache (backend/app/core/cache.py) -/

/-- Python values as they reach the cache-key builder. -/
inductive PyVal where
  | pint (n : ℤ)
  | pfloat (q : ℚ)
  | pstr (s : String)
  | pbool (b : Bool)
  | pnone
  | plist (xs : List PyVal)
  | ptuple (xs : List PyVal)
  | pdict (kvs : List (String × PyVal))

/-- hasattr(value, "\x5f\x5fclass\x5f\x5f"): every Python value carries a
class attribute, so this test is true for every argument whatsoever,
methods and plain values alike. -/
def hasattrClass : PyVal → Bool := fun _ => true

mutual

/-- make_hashable: lists become tuples recursively, dicts become tuples
of key-sorted pairs. -/
def makeHashable : PyVal → PyVal
  | .plist xs => .ptuple (makeHashableList xs)
  | .pdict kvs =>
      .ptuple ((sortBy (fun a b => decide (a.1 ≤ b.1))
        (makeHashableKVs kvs)).map (fun kv => .ptuple [.pstr kv.1, kv.2]))
  | v => v

/-- make_hashable mapped over the items of a Python list. -/
def makeHashableList : List PyVal → List PyVal
  | [] => []
  | x :: xs => makeHashable x :: makeHashableList xs

/-- make_hashable mapped over the values of a Python dict. -/
def makeHashableKVs : List (String × PyVal) → List (String × PyVal)
  | [] => []
  | kv :: kvs => (kv.1, makeHashable kv.2) :: makeHashableKVs kvs

end

/-- The cache key built inside AsyncTTLChecker's wrapper:
start_index = 1 if args and hasattr(args[0], ...) else 0, then the
hashable forms of the remaining positional and sorted keyword args. -/
def cacheKey (funcName : String) (args : List PyVal)
    (kwargs : List (String × PyVal)) :
    String × List PyVal × List (String × PyVal) :=
  let startIndex :=
    match args with
    | [] => 0
    | a :: _ => if hasattrClass a then 1 else 0
  let cleanArgs := args.drop startIndex
  let keyArgs := cleanArgs.map makeHashable
  let keyKwargs := sortBy (fun a b => decide (a.1 ≤ b.1))
    (kwargs.map (fun kv => (kv.1, makeHashable kv.2)))
  (funcName, keyArgs, keyKwargs)

/-! ### Composed HTTP application routes
(backend/app/api/v1/router.py and backend/app/main.py). -/

/-- market_data.router: APIRouter mounted at /market-data. -/
def marketDataRoutes : List (String × String) :=
  [("POST", "/market-data/"),
   ("GET", "/market-data/quick-stats"),
   ("GET", "/market-data/validate-tickers")]

/-- sentiment.router: APIRouter mounted at /sentiment. -/
def sentimentRoutes : List (String × String) :=
  [("POST", "/sentiment/analyze"),
   ("GET", "/sentiment/views/\x7bticker\x7d"),
   ("POST", "/sentiment/warmup"),
   ("GET", "/sentiment/health")]

/-- optimization.router as defined in endpoints/optimization.py;
router.py does not include it (the include line is commented out). -/
def optimizationRoutes : List (String × String) :=
  [("POST", "/optimization/optimize"),
   ("POST", "/optimization/optimize/no-sentiment"),
   ("GET", "/optimization/objectives"),
   ("POST", "/optimization/views/from-sentiment")]

/-- risk.router as defined in endpoints/risk.py; router.py does not
include it either. -/
def riskRoutes : List (String × String) :=
  [("POST", "/risk/analyze"),
   ("POST", "/risk/analyze-optimized"),
   ("GET", "/risk/var/quick"),
   ("GET", "/risk/stress-scenarios"),
   ("GET", "/risk/metrics/explanation")]

/-- api_router of api/v1/router.py: only the market-data and sentiment
routers are registered; the optimization, risk and portfolio includes
are commented out in the source. -/
def apiRouterRoutes : List (String × String) :=
  marketDataRoutes ++ sentimentRoutes

/-- The composed FastAPI application of main.py: api_router mounted
under settings.API_V1_PREFIX = /api/v1, plus the root and health GETs. -/
def appRoutes : List (String × String) :=
  (apiRouterRoutes.map (fun r => (r.1, "/api/v1" ++ r.2)))
    ++ [("GET", "/"), ("GET", "/health")]

/-! ### Request validation (backend/app/models/schemas.py) -/

/-- Leading-whitespace removal over a character sequence. -/
def dropLeadingWs : List Char → List Char
  | [] => []
  | c :: cs => if c.isWhitespace then dropLeadingWs cs else c :: cs

/-- Python str.strip over the character sequence: whitespace removed
from both ends. -/
def stripChars (cs : List Char) : List Char :=
  (dropLeadingWs ((dropLeadingWs cs).reverse)).reverse

/-- Ticker normalization used by the validators: v.upper().strip(),
over the character sequence. -/
def normalizeTicker (s : String) : String :=
  String.mk (stripChars (s.data.map Char.toUpper))

/-- Python dict assignment: overwrite the value when the key exists,
append otherwise. -/
def insertOverwrite (acc : List (String × ℚ)) (k : String) (v : ℚ) :
    List (String × ℚ) :=
  if acc.any (fun kv => kv.1 == k) then
    acc.map (fun kv => if kv.1 == k then (k, v) else kv)
  else
    acc ++ [(k, v)]

/-- The weight-dict key normalization inside
RiskAnalysisRequest.validate_weights_match_tickers:
self.weights = \x7bk.upper().strip(): v for k, v in self.weights.items()\x7d. -/
def normalizeWeights (ws : List (String × ℚ)) : List (String × ℚ) :=
  ws.foldl (fun acc kv => insertOverwrite acc (normalizeTicker kv.1) kv.2) []

/-- Python set equality on the two key collections. -/
def eqSet (a b : List String) : Bool :=
  a.all (fun x => b.contains x) && b.all (fun x => a.contains x)

/-- Full validation of a RiskAnalysisRequest's tickers/weights pair:
the tickers field validator uppercases and strips, the model validator
normalizes the weight keys and then compares the two KEY SETS — no
constraint on the weight values themselves appears anywhere in this
model. -/
def riskRequestWeightsValid (tickers : List String)
    (weights : List (String × ℚ)) : Bool :=
  if tickers.length < 1 || 30 < tickers.length then false
  else
    let ts := tickers.map normalizeTicker
    let ws := normalizeWeights weights
    eqSet (ws.map (·.1)) ts

/-- PortfolioWeights.validate_weights of schemas.py: sum within
[0.99, 1.01] and no negative weight.  This model is referenced by no
request schema and no endpoint in the repository. -/
def portfolioWeightsValid (ws : List (String × ℚ)) : Bool :=
  let total := (ws.map (·.2)).sum
  decide ((99 : ℚ)/100 ≤ total) && decide (total ≤ (101 : ℚ)/100)
    && !(ws.any (fun kv => kv.2 < 0))

/-! ### Sentiment Analysis Service
(backend/app/services/sentiment_service.py) -/

/-- SentimentLabel enum (models/enums.py). -/
inductive SentLabel where
  | positive
  | negative
  | neutral
deriving Repr, DecidableEq

/-- Per-headline classification record (schemas.SentimentResult),
restricted to the fields the aggregation reads. -/
structure SentimentResult where
  label : SentLabel
  confidence : ℚ
deriving Repr, DecidableEq

/-- total_confidence accumulated over all results. -/
def totalConfidence (rs : List SentimentResult) : ℚ :=
  (rs.map (·.confidence)).sum

/-- weighted_positive: confidences of positive-labeled headlines. -/
def weightedPositive (rs : List SentimentResult) : ℚ :=
  ((rs.filter (fun r => r.label == .positive)).map (·.confidence)).sum

/-- weighted_negative: confidences of negative-labeled headlines. -/
def weightedNegative (rs : List SentimentResult) : ℚ :=
  ((rs.filter (fun r => r.label == .negative)).map (·.confidence)).sum

/-- The sentiment_score local of _aggregate_sentiment:
(weighted_positive - weighted_negative) / total_confidence when the
total is positive, else 0.0. -/
def sentimentScoreOf (rs : List SentimentResult) : ℚ :=
  if 0 < totalConfidence rs then
    (weightedPositive rs - weightedNegative rs) / totalConfidence rs
  else 0

/-- _classify_by_score with BULLISH_THRESHOLD = 0.15 and
BEARISH_THRESHOLD = -0.15. -/
def classifyByScore (score : ℚ) : SentLabel :=
  if 15/100 ≤ score then .positive
  else if score ≤ -(15/100) then .negative
  else .neutral

/-- Per-ticker aggregate (schemas.TickerSentimentSummary), with the
fields rounded exactly where the source rounds them. -/
structure TickerSentimentSummary where
  ticker : String
  sentimentScore : ℚ
  dominantSentiment : SentLabel
  confidenceAvg : ℚ
  articlesAnalyzed : ℕ
  positiveFrac : ℚ
  negativeFrac : ℚ
  neutralFrac : ℚ
deriving Repr, DecidableEq

/-- _create_neutral_summary. -/
def createNeutralSummary (ticker : String) : TickerSentimentSummary :=
  { ticker := ticker
    sentimentScore := 0
    dominantSentiment := .neutral
    confidenceAvg := 0
    articlesAnalyzed := 0
    positiveFrac := 0
    negativeFrac := 0
    neutralFrac := 0 }

/-- _aggregate_sentiment: empty input degrades to the neutral summary,
otherwise the score is computed from confidence-weighted positive and
negative mass and the dominant label comes from the score alone. -/
def aggregateSentiment (ticker : String) (rs : List SentimentResult) :
    TickerSentimentSummary :=
  if rs.isEmpty then createNeutralSummary ticker
  else
    let score := sentimentScoreOf rs
    let total : ℚ := rs.length
    { ticker := ticker
      sentimentScore := pyRound 4 score
      dominantSentiment := classifyByScore score
      confidenceAvg := pyRound 4 (totalConfidence rs / total)
      articlesAnalyzed := rs.length
      positiveFrac := pyRound 4 ((rs.filter (fun r => r.label == .positive)).length / total)
      negativeFrac := pyRound 4 ((rs.filter (fun r => r.label == .negative)).length / total)
      neutralFrac := pyRound 4 ((rs.filter (fun r => r.label == .neutral)).length / total) }

/-! ### Portfolio Optimization Service
(backend/app/services/optimization_service.py).  The pypfopt solver
calls are abstract function fields of EFLib (a solver returning none
models the library raising); everything around them — view
preparation, the objective dispatch of _optimize, clean-weights /
allocations assembly, the response record — is embedded from the
source. -/

/-- Expected-return series type (a pandas Series indexed by ticker). -/
abbrev MuT := List (String × ℚ)

/-- Covariance matrix type (a pandas DataFrame indexed by ticker). -/
abbrev CovT := List (String × List (String × ℚ))

/-- OptimizationConstraints (schemas.py). -/
structure OptimizationConstraints where
  minWeight : ℚ
  maxWeight : ℚ
  sectorConstraints : Option (List (String × (ℚ × ℚ)))
deriving Repr, DecidableEq

/-- BlackLittermanView (schemas.py). -/
structure BLView where
  ticker : String
  view : ℚ
  confidence : ℚ
deriving Repr, DecidableEq

/-- OptimizationRequest (schemas.py), the fields read by the service. -/
structure OptimizationRequest where
  tickers : List String
  timeframe : Timeframe
  objective : String
  useSentiment : Bool
  views : Option (List BLView)
  constraints : OptimizationConstraints
  riskFreeRate : ℚ
  targetReturn : Option ℚ
  targetVolatility : Option ℚ
deriving Repr, DecidableEq

/-- Python truthiness of the optional views list: None and [] falsy. -/
def truthyViews : Option (List BLView) → Bool
  | none => false
  | some vs => !vs.isEmpty

/-- _prepare_views: manual views win outright; otherwise sentiment
views with return = score * SENTIMENT_TO_RETURN_SCALE (0.02) and
confidence = min(mean confidence * article factor * extremity factor,
MAX_SENTIMENT_CONFIDENCE = 0.15).  log10 is a function parameter. -/
def prepareViews (log10q : ℚ → ℚ) (request : OptimizationRequest)
    (sentimentResults : Option (List (String × TickerSentimentSummary))) :
    List (String × ℚ) × List (String × ℚ) :=
  if truthyViews request.views then
    ((request.views.getD []).foldl
      (fun acc v =>
        if request.tickers.contains v.ticker then
          (insertOverwrite acc.1 v.ticker v.view,
           insertOverwrite acc.2 v.ticker v.confidence)
        else acc)
      ([], []))
  else if request.useSentiment && sentimentResults.isSome then
    ((sentimentResults.getD []).foldl
      (fun acc entry =>
        let ticker := entry.1
        let summary := entry.2
        if request.tickers.contains ticker then
          let viewReturn := summary.sentimentScore * (2/100)
          let baseConfidence := summary.confidenceAvg
          let articleFactor :=
            min (log10q (summary.articlesAnalyzed + 1) / log10q 31) 1
          let extremityFactor := 1 - (3/10) * |summary.sentimentScore|
          let rawConfidence := baseConfidence * articleFactor * extremityFactor
          let finalConfidence := min rawConfidence (15/100)
          (insertOverwrite acc.1 ticker viewReturn,
           insertOverwrite acc.2 ticker finalConfidence)
        else acc)
      ([], []))
  else ([], [])

/-- BlackLittermanParams (schemas.py). -/
structure BLParams where
  tau : ℚ
  marketImpliedReturns : List (String × ℚ)
  posteriorReturns : List (String × ℚ)
  viewsApplied : List (String × ℚ)
deriving Repr, DecidableEq

/-- _apply_black_litterman: views filtered to the covariance tickers;
no view, or the library raising, yields none; otherwise the posterior
returns and a rounded parameter record.  The library call bl_returns is
the function parameter blReturns (confidence defaulting to 0.1 for a
view without one, tau = 0.05, Idzorek omega inside the library). -/
def applyBlackLitterman
    (blReturns : CovT → List (String × ℚ) → ℚ → List ℚ → MuT → Option MuT)
    (cov : CovT) (views viewConfidences : List (String × ℚ))
    (marketPrior : MuT) : Option (MuT × BLParams) :=
  let tickers := cov.map (·.1)
  let viewdict := views.filter (fun kv => tickers.contains kv.1)
  if viewdict.isEmpty then none
  else
    let confs := viewdict.map (fun kv =>
      (((viewConfidences.find? (fun c => c.1 == kv.1)).map (·.2)).getD (1/10)))
    match blReturns cov viewdict (5/100) confs marketPrior with
    | none => none
    | some posterior =>
      some (posterior,
        { tau := 5/100
          marketImpliedReturns :=
            marketPrior.map (fun kv => (kv.1, pyRound 2 (kv.2 * 100)))
          posteriorReturns :=
            posterior.map (fun kv => (kv.1, pyRound 2 (kv.2 * 100)))
          viewsApplied :=
            viewdict.map (fun kv => (kv.1, pyRound 2 (kv.2 * 100))) })

/-- PortfolioMetrics (schemas.py). -/
structure PortfolioMetrics where
  expectedAnnualReturn : ℚ
  annualVolatility : ℚ
  sharpeRatio : ℚ
deriving Repr, DecidableEq

/-- PortfolioAllocation (schemas.py). -/
structure PortfolioAllocation where
  ticker : String
  weight : ℚ
  weightPercent : ℚ
  expectedReturn : ℚ
deriving Repr, DecidableEq

/-- One efficient-frontier point. -/
structure FrontierPoint where
  ret : ℚ
  vol : ℚ
  sharpe : ℚ
deriving Repr, DecidableEq

/-- The pypfopt surface used by the service: each solver takes the
expected returns, covariance and the per-asset weight bounds; a none
result models the library raising on that call.  portfolio_performance
is read off the solved state, modelled as a function of the raw solved
weights. -/
structure EFLib where
  maxSharpe : MuT → CovT → (ℚ × ℚ) → ℚ → Option (List (String × ℚ))
  minVolatility : MuT → CovT → (ℚ × ℚ) → Option (List (String × ℚ))
  efficientReturn : MuT → CovT → (ℚ × ℚ) → ℚ → Option (List (String × ℚ))
  efficientRisk : MuT → CovT → (ℚ × ℚ) → ℚ → Option (List (String × ℚ))
  cleanWeights : List (String × ℚ) → List (String × ℚ)
  performance : MuT → CovT → List (String × ℚ) → ℚ → ℚ × ℚ × ℚ

/-- _optimize: the objective dispatch.  Unknown objective strings, and
efficient_return / efficient_risk without a truthy target, all take the
final else branch and solve max_sharpe; afterwards clean_weights
(cutoff 0.01 inside the library) and the rounded metrics. -/
def optimizeDispatch (lib : EFLib) (mu : MuT) (cov : CovT)
    (objective : String) (bounds : ℚ × ℚ) (riskFreeRate : ℚ)
    (targetReturn targetVolatility : Option ℚ) :
    Option ((List (String × ℚ)) × PortfolioMetrics) :=
  let raw : Option (List (String × ℚ)) :=
    if objective == "max_sharpe" then
      lib.maxSharpe mu cov bounds riskFreeRate
    else if objective == "min_volatility" then
      lib.minVolatility mu cov bounds
    else if objective == "efficient_return" && truthyFloat targetReturn then
      lib.efficientReturn mu cov bounds (targetReturn.getD 0)
    else if objective == "efficient_risk" && truthyFloat targetVolatility then
      lib.efficientRisk mu cov bounds (targetVolatility.getD 0)
    else
      lib.maxSharpe mu cov bounds riskFreeRate
  match raw with
  | none => none
  | some weights =>
    let cleaned := lib.cleanWeights weights
    let performance := lib.performance mu cov weights riskFreeRate
    some (cleaned,
      { expectedAnnualReturn := pyRound 2 (performance.1 * 100)
        annualVolatility := pyRound 2 (performance.2.1 * 100)
        sharpeRatio := pyRound 3 performance.2.2 })

/-- _build_allocations: weights above 0.001 become allocation records,
sorted by weight descending. -/
def buildAllocations (weights : List (String × ℚ)) (expectedRs : MuT) :
    List PortfolioAllocation :=
  sortBy (fun a b => decide (b.weight ≤ a.weight))
    ((weights.filter (fun kv => (1 : ℚ)/1000 < kv.2)).map (fun kv =>
      { ticker := kv.1
        weight := pyRound 4 kv.2
        weightPercent := pyRound 2 (kv.2 * 100)
        expectedReturn :=
          pyRound 2 ((((expectedRs.find? (fun e => e.1 == kv.1)).map (·.2)).getD 0) * 100) }))

/-- np.linspace with endpoint, n ≥ 2 points. -/
def linspace (a b : ℚ) (n : ℕ) : List ℚ :=
  (List.range n).map (fun i => a + (b - a) * i / (n - 1))

/-- _calculate_efficient_frontier: 20 targets between min and max
expected return, each solved as an unconstrained efficient_return;
failing points are skipped. -/
def calcEfficientFrontier (lib : EFLib) (mu : MuT) (cov : CovT)
    (riskFreeRate : ℚ) : List FrontierPoint :=
  let minRet := listMin (mu.map (·.2))
  let maxRet := listMax (mu.map (·.2))
  (linspace minRet maxRet 20).filterMap (fun target =>
    (lib.efficientReturn mu cov (0, 1) target).map (fun w =>
      let perf := lib.performance mu cov w riskFreeRate
      { ret := pyRound 2 (perf.1 * 100)
        vol := pyRound 2 (perf.2.1 * 100)
        sharpe := pyRound 3 perf.2.2 }))

/-- OptimizationResponse (schemas.py) minus the wall-clock timestamp. -/
structure OptimizationResponse where
  objectiveUsed : String
  tickers : List String
  allocations : List PortfolioAllocation
  weights : List (String × ℚ)
  metrics : PortfolioMetrics
  blackLittermanParams : Option BLParams
  sentimentViewsUsed : Bool
  constraintsApplied : OptimizationConstraints
  efficientFrontier : List FrontierPoint
deriving Repr, DecidableEq

/-- optimize_portfolio: views, optional Black-Litterman posterior,
objective dispatch, allocations, frontier, response assembly.  mu and
cov stand for the mean_historical_return / sample_cov of the downloaded
price history, which the objective never influences; a none result
models the pipeline raising (wrapped into OptimizationException). -/
def optimizePortfolio (lib : EFLib) (log10q : ℚ → ℚ)
    (blReturns : CovT → List (String × ℚ) → ℚ → List ℚ → MuT → Option MuT)
    (mu : MuT) (cov : CovT) (request : OptimizationRequest)
    (sentimentResults : Option (List (String × TickerSentimentSummary))) :
    Option OptimizationResponse :=
  let prepared := prepareViews log10q request sentimentResults
  let blOut :=
    if !prepared.1.isEmpty then
      applyBlackLitterman blReturns cov prepared.1 prepared.2 mu
    else none
  let posteriorMu := match blOut with
    | some p => p.1
    | none => mu
  match optimizeDispatch lib posteriorMu cov request.objective
      (request.constraints.minWeight, request.constraints.maxWeight)
      request.riskFreeRate request.targetReturn request.targetVolatility with
  | none => none
  | some solved =>
    some
      { objectiveUsed := request.objective
        tickers := request.tickers
        allocations := buildAllocations solved.1 posteriorMu
        weights := solved.1
        metrics := solved.2
        blackLittermanParams := blOut.map (·.2)
        sentimentViewsUsed := request.useSentiment && sentimentResults.isSome
        constraintsApplied := request.constraints
        efficientFrontier := calcEfficientFrontier lib posteriorMu cov request.riskFreeRate }

/-! ### Risk Analysis Service (backend/app/services/risk_service.py) -/

/-- np.percentile with the default linear interpolation: sort, take
h = q/100 * (n-1), interpolate between the floor and ceiling order
statistics. -/
def npPercentile (xs : List ℚ) (q : ℚ) : ℚ :=
  let s := sortBy (fun a b => decide (a ≤ b)) xs
  let n := s.length
  let h : ℚ := q / 100 * ((n : ℚ) - 1)
  let i : ℕ := (⌊h⌋).toNat
  let lo := s.getD i 0
  let hi := s.getD (i + 1) lo
  lo + (h - (i : ℚ)) * (hi - lo)

/-- losses = portfolio_value - simulated_values. -/
def lossesOf (portfolioValue : ℚ) (simulatedValues : List ℚ) : List ℚ :=
  simulatedValues.map (fun v => portfolioValue - v)

/-- var_amount = np.percentile(losses, confidence_level * 100). -/
def varAmount (portfolioValue confidenceLevel : ℚ)
    (simulatedValues : List ℚ) : ℚ :=
  npPercentile (lossesOf portfolioValue simulatedValues) (confidenceLevel * 100)

/-- tail_losses = losses[losses >= var_amount]. -/
def tailLosses (portfolioValue confidenceLevel : ℚ)
    (simulatedValues : List ℚ) : List ℚ :=
  (lossesOf portfolioValue simulatedValues).filter
    (fun l => varAmount portfolioValue confidenceLevel simulatedValues ≤ l)

/-- es_amount: mean of the tail losses when the tail is non-empty,
else the VaR amount itself. -/
def esAmount (portfolioValue confidenceLevel : ℚ)
    (simulatedValues : List ℚ) : ℚ :=
  let tail := tailLosses portfolioValue confidenceLevel simulatedValues
  if tail.isEmpty then varAmount portfolioValue confidenceLevel simulatedValues
  else listMean tail

/-- VaRResult (schemas.py) with the source's 2-decimal rounding. -/
structure VaRRecord where
  confidenceLevel : ℚ
  varPercent : ℚ
  varAmountField : ℚ
  expectedShortfall : ℚ
  esPercent : ℚ
deriving Repr, DecidableEq

/-- _calculate_var assembled from the pieces above. -/
def calculateVar (portfolioValue confidenceLevel : ℚ)
    (simulatedValues : List ℚ) : VaRRecord :=
  let var := varAmount portfolioValue confidenceLevel simulatedValues
  let es := esAmount portfolioValue confidenceLevel simulatedValues
  { confidenceLevel := confidenceLevel
    varPercent := pyRound 2 (var / portfolioValue * 100)
    varAmountField := pyRound 2 var
    expectedShortfall := pyRound 2 es
    esPercent := pyRound 2 (es / portfolioValue * 100) }

/-! ### Monte Carlo simulation (_run_monte_carlo).  numpy's global
generator is explicit state: np.random.seed(42) replaces whatever state
the process generator holds with seedState 42, and standard_normal is a
deterministic function of the state and the shape — exactly numpy's
contract for a seeded Mersenne generator. -/

/-- The numpy global random generator as a deterministic machine. -/
structure NumpyRandom where
  seedState : ℕ → ℕ
  standardNormal : ℕ → ℕ → ℕ → List (List ℚ) × ℕ

/-- _run_monte_carlo's path construction: shocks Z under the fixed seed
42, GBM daily returns (mu - sigma^2/2) + sigma * Z, row-wise cumulative
sums, value paths portfolio_value * exp(cum) with the initial value
prepended.  The float exp is the parameter expq.  The incoming
generator state is the state the process RNG happened to hold before
the call; the function returns the paths plus the outgoing state. -/
def runMonteCarloPaths (npr : NumpyRandom) (expq : ℚ → ℚ)
    (rngState : ℕ) (mu sigma portfolioValue : ℚ)
    (numSimulations simulationDays : ℕ) : List (List ℚ) × ℕ :=
  let seeded := npr.seedState 42
  let drawn := npr.standardNormal seeded numSimulations simulationDays
  let z := drawn.1
  let dailyReturns :=
    z.map (fun row => row.map (fun zi => (mu - sigma ^ 2 / 2) + sigma * zi))
  let cumulativeReturns := dailyReturns.map cumsumList
  let simulatedPaths := cumulativeReturns.map
    (fun row => portfolioValue :: row.map (fun c => portfolioValue * expq c))
  (simulatedPaths, drawn.2)

/-- final_values = simulated_paths[:, -1]. -/
def finalValuesOf (paths : List (List ℚ)) : List ℚ :=
  paths.map (fun row => lastD row 0)

/-! ### Concrete inputs used by witnesses and counterexamples. -/

/-- Three classified headlines: positive 0.9, negative 0.3, neutral 0.5
(the spec's own worked example). -/
def sampleSentimentResults : List SentimentResult :=
  [{ label := .positive, confidence := 9/10 },
   { label := .negative, confidence := 3/10 },
   { label := .neutral, confidence := 1/2 }]

/-- A stub pypfopt surface used to exhibit concrete optimizer
responses: max_sharpe and min_volatility solve to a single-asset
portfolio, the target-constrained objectives raise. -/
def stubLib : EFLib :=
  { maxSharpe := fun _ _ _ _ => some [("AAPL", 1)]
    minVolatility := fun _ _ _ => some [("AAPL", 1)]
    efficientReturn := fun _ _ _ _ => none
    efficientRisk := fun _ _ _ _ => none
    cleanWeights := fun w => w
    performance := fun _ _ _ _ => (0, 0, 0) }

/-- A concrete optimization request with the given objective string. -/
def stubRequest (objective : String) : OptimizationRequest :=
  { tickers := ["AAPL", "MSFT"]
    timeframe := .oneYear
    objective := objective
    useSentiment := false
    views := none
    constraints := { minWeight := 0, maxWeight := 1, sectorConstraints := none }
    riskFreeRate := 1/25
    targetReturn := none
    targetVolatility := none }

/-! ## Theorems -/

/-! Shared helper lemmas. -/

lemma dropna_replicate (n : ℕ) (x : ℚ) :
    dropna (List.replicate n (some x)) = List.replicate n x := by
  induction n with
  | zero => rfl
  | succ n ih => simpa [dropna, List.replicate_succ] using ih

lemma getLastD_replicate (n : ℕ) (x d : ℚ) :
    (List.replicate (n + 1) x).getLastD d = x := by
  induction n generalizing d with
  | zero => rfl
  | succ n ih => simpa [List.replicate_succ, List.getLastD_cons] using ih x

lemma getD_replicate (n i : ℕ) (x d : ℚ) (h : i < n) :
    (List.replicate n x).getD i d = x := by
  induction n generalizing i with
  | zero => omega
  | succ n ih =>
    cases i with
    | zero => rfl
    | succ i => simpa [List.replicate_succ] using ih i (by omega)

lemma foldl_min_le_init (xs : List ℚ) (a : ℚ) : xs.foldl min a ≤ a := by
  induction xs generalizing a with
  | nil => exact le_refl a
  | cons x xs ih => exact le_trans (ih (min a x)) (min_le_left a x)

lemma lt_foldl_min (xs : List ℚ) (a b : ℚ) (hb : a < b)
    (h : ∀ x ∈ xs, a < x) : a < xs.foldl min b := by
  induction xs generalizing b with
  | nil => exact hb
  | cons x xs ih =>
    exact ih (min b x) (lt_min hb (h x (by simp))) (fun y hy => h y (by simp [hy]))

lemma le_foldl_min (xs : List ℚ) (a b : ℚ) (hb : a ≤ b)
    (h : ∀ x ∈ xs, a ≤ x) : a ≤ xs.foldl min b := by
  induction xs generalizing b with
  | nil => exact hb
  | cons x xs ih =>
    exact ih (min b x) (le_min hb (h x (by simp))) (fun y hy => h y (by simp [hy]))

lemma cumprodFrom_pos (l : List ℚ) (acc : ℚ) (hacc : 0 < acc)
    (h : ∀ x ∈ l, 0 < x) : ∀ c ∈ cumprodFrom acc l, 0 < c := by
  induction l generalizing acc with
  | nil => intro c hc; simp [cumprodFrom] at hc
  | cons x xs ih =>
    intro c hc
    rw [cumprodFrom] at hc
    rcases List.mem_cons.mp hc with h1 | h1
    · exact h1 ▸ mul_pos hacc (h x (by simp))
    · exact ih (acc * x) (mul_pos hacc (h x (by simp)))
        (fun y hy => h y (by simp [hy])) c h1

lemma dd_tail_gt (cs : List ℚ) (m : ℚ) (hm : 0 < m)
    (h : ∀ c ∈ cs, 0 < c) :
    ∀ d ∈ List.zipWith (fun c m => (c - m) / m) cs (runMaxFrom m cs), -1 < d := by
  induction cs generalizing m with
  | nil => intro d hd; simp at hd
  | cons c cs ih =>
    intro d hd
    rw [runMaxFrom, List.zipWith_cons_cons] at hd
    rcases List.mem_cons.mp hd with h1 | h1
    · subst h1
      have hc : 0 < c := h c (by simp)
      have hM : 0 < max m c := lt_max_of_lt_right hc
      have hdiv : (0 : ℚ) < c / max m c := div_pos hc hM
      show -1 < (c - max m c) / max m c
      have hrw : (c - max m c) / max m c = c / max m c - 1 := by
        field_simp
      rw [hrw]
      linarith
    · exact ih (max m c) (lt_max_of_lt_left hm)
        (fun y hy => h y (by simp [hy])) d h1

lemma runMaxFrom_of_chain (cs : List ℚ) (m : ℚ)
    (h : List.Chain (· ≤ ·) m cs) : runMaxFrom m cs = cs := by
  induction cs generalizing m with
  | nil => rfl
  | cons c cs ih =>
    rcases List.chain_cons.mp h with ⟨h1, h2⟩
    rw [runMaxFrom, max_eq_right h1, ih c h2]

lemma chain_cumprodFrom (l : List ℚ) (acc : ℚ) (hacc : 0 < acc)
    (h : ∀ x ∈ l, 1 ≤ x) : List.Chain (· ≤ ·) acc (cumprodFrom acc l) := by
  induction l generalizing acc with
  | nil => exact List.Chain.nil
  | cons x xs ih =>
    rw [cumprodFrom]
    refine List.chain_cons.mpr ⟨?_, ?_⟩
    · exact le_mul_of_one_le_right hacc.le (h x (by simp))
    · exact ih (acc * x)
        (mul_pos hacc (lt_of_lt_of_le one_pos (h x (by simp))))
        (fun y hy => h y (by simp [hy]))

/-- C1 (counterexample): the composed application does NOT expose the
optimization and risk endpoint groups — router.py registers only the
market-data and sentiment routers, so POST /api/v1/optimization/optimize
and POST /api/v1/risk/analyze are not routes of the application. -/
theorem router_omits_optimization_and_risk :
    ¬ (("POST", "/api/v1/optimization/optimize") ∈ appRoutes
        ∧ ("POST", "/api/v1/risk/analyze") ∈ appRoutes) := by
  decide

/-- C1 (amended): the composed application mounts exactly the
market-data and sentiment endpoint groups under the /api/v1 API prefix
(plus the root health surface); every optimization and risk route of
the existing but unregistered routers is absent. -/
theorem app_mounts_only_market_data_and_sentiment :
    (∀ r ∈ marketDataRoutes ++ sentimentRoutes,
        (r.1, "/api/v1" ++ r.2) ∈ appRoutes)
      ∧ (∀ r ∈ optimizationRoutes ++ riskRoutes,
        (r.1, "/api/v1" ++ r.2) ∉ appRoutes)
      ∧ ("GET", "/") ∈ appRoutes ∧ ("GET", "/health") ∈ appRoutes := by
  refine ⟨?_, ?_, ?_, ?_⟩ <;> decide

/-- C2 (code bug): MarketDataService.get_market_data is not wrapped by
the response cache — its body runs the provider download
unconditionally, so a second call with structurally equal arguments
recomputes the result and increments the provider-hit counter again
instead of returning a cached entry. -/
theorem get_market_data_always_hits_provider (sqrtq logq : ℚ → ℚ)
    (download : List String → Timeframe → Except String PriceTable)
    (tickers : List String) (timeframe : Timeframe) (fetchCount : ℕ) :
    (getMarketDataRun sqrtq logq download
        (getMarketDataRun sqrtq logq download fetchCount tickers timeframe).2
        tickers timeframe).2 = fetchCount + 2
      ∧ (getMarketDataRun sqrtq logq download
        (getMarketDataRun sqrtq logq download fetchCount tickers timeframe).2
        tickers timeframe).1
        = (getMarketDataRun sqrtq logq download fetchCount tickers timeframe).1 := by
  exact ⟨rfl, rfl⟩

/-- C4 (code bug): the cache-key builder drops the first positional
argument of EVERY call, not only an implicit receiver, because
hasattr(x, "\x5f\x5fclass\x5f\x5f") holds for every Python value; two
calls to a wrapped plain function differing only in their first
positional argument therefore build the same key and share one cache
entry. -/
theorem cache_key_drops_first_positional_arg :
    cacheKey "f" [.pint 1, .pint 100] []
      = cacheKey "f" [.pint 2, .pint 100] [] := by
  rfl

/-- C9: the Monte Carlo path construction reseeds the numpy global
generator with the constant 42 before drawing, so its output is
independent of the generator state the process happened to be in:
two invocations with identical (mu, sigma, portfolio value,
num_simulations, simulation_days) produce identical path matrices and
identical terminal-value arrays whatever states they start from. -/
theorem monte_carlo_deterministic_under_fixed_seed
    (npr : NumpyRandom) (expq : ℚ → ℚ) (s1 s2 : ℕ)
    (mu sigma portfolioValue : ℚ) (numSimulations simulationDays : ℕ) :
    (runMonteCarloPaths npr expq s1 mu sigma portfolioValue
        numSimulations simulationDays).1
      = (runMonteCarloPaths npr expq s2 mu sigma portfolioValue
        numSimulations simulationDays).1
    ∧ finalValuesOf (runMonteCarloPaths npr expq s1 mu sigma portfolioValue
        numSimulations simulationDays).1
      = finalValuesOf (runMonteCarloPaths npr expq s2 mu sigma portfolioValue
        numSimulations simulationDays).1 := by
  exact ⟨rfl, rfl⟩

/-- C3 (counterexample): RiskAnalysisRequest validation ACCEPTS weights
summing to 0.5 for tickers [AAPL, MSFT] — the sum-tolerance and
non-negativity checks live only on the unused PortfolioWeights model,
so the claim that such a request is rejected is false. -/
theorem risk_request_accepts_half_sum_weights :
    riskRequestWeightsValid ["AAPL", "MSFT"]
      [("AAPL", 1/4), ("MSFT", 1/4)] = true := by
  decide

/-- C8 (counterexample): a log-return below -1 makes the cumulative
index negative and pushes the computed max drawdown below -100%: the
series [0.5, -2] yields exactly -200%. -/
theorem max_drawdown_below_minus_one :
    maxDrawdown [(1 : ℚ)/2, -2] = -2 ∧ maxDrawdown [(1 : ℚ)/2, -2] < -1 := by
  constructor <;>
    norm_num [maxDrawdown, drawdowns, cumprodFrom, runningMax, runMaxFrom,
      listMin, max_def, min_def, List.zipWith]

lemma dd_self_zero (l : List ℚ) :
    ∀ d ∈ List.zipWith (fun c m => (c - m) / m) l l, d = 0 := by
  induction l with
  | nil => simp
  | cons c cs ih =>
    intro d hd
    rw [List.zipWith_cons_cons] at hd
    rcases List.mem_cons.mp hd with h | h
    · simp [h]
    · exact ih d h

/-- C8 (amended): for every non-empty log-return series the computed
max drawdown is at most 0; it stays strictly above -100% whenever every
return exceeds -1 (the cumulative index then remains positive); and a
strictly non-negative series yields exactly 0. -/
theorem max_drawdown_bounds (rs : List ℚ) (hne : rs ≠ []) :
    maxDrawdown rs ≤ 0
      ∧ ((∀ r ∈ rs, -1 < r) → -1 < maxDrawdown rs)
      ∧ ((∀ r ∈ rs, 0 ≤ r) → maxDrawdown rs = 0) := by
  obtain ⟨x, xs, rfl⟩ := List.exists_cons_of_ne_nil hne
  have hcum : cumprodFrom 1 ((x :: xs).map (fun r => 1 + r))
      = (1 + x) :: cumprodFrom (1 + x) (xs.map (fun r => 1 + r)) := by
    simp [cumprodFrom]
  have hdd : drawdowns (x :: xs)
      = 0 :: List.zipWith (fun c m => (c - m) / m)
          (cumprodFrom (1 + x) (xs.map (fun r => 1 + r)))
          (runMaxFrom (1 + x) (cumprodFrom (1 + x) (xs.map (fun r => 1 + r)))) := by
    rw [drawdowns, hcum]
    simp [runningMax, List.zipWith_cons_cons]
  refine ⟨?_, ?_, ?_⟩
  · rw [maxDrawdown, hdd, listMin]
    exact foldl_min_le_init _ 0
  · intro hpos
    have h1x : 0 < 1 + x := by
      have := hpos x (by simp); linarith
    have hcs : ∀ c ∈ cumprodFrom (1 + x) (xs.map (fun r => 1 + r)), 0 < c := by
      refine cumprodFrom_pos _ (1 + x) h1x ?_
      intro y hy
      obtain ⟨r, hr, rfl⟩ := List.mem_map.mp hy
      have := hpos r (by simp [hr]); linarith
    have htail := dd_tail_gt _ (1 + x) h1x hcs
    rw [maxDrawdown, hdd, listMin]
    exact lt_foldl_min _ (-1) 0 (by norm_num) htail
  · intro hnn
    have h1x : 0 < 1 + x := by
      have := hnn x (by simp); linarith
    have hchain : List.Chain (· ≤ ·) (1 + x)
        (cumprodFrom (1 + x) (xs.map (fun r => 1 + r))) := by
      refine chain_cumprodFrom _ (1 + x) h1x ?_
      intro y hy
      obtain ⟨r, hr, rfl⟩ := List.mem_map.mp hy
      have := hnn r (by simp [hr]); linarith
    have hrm := runMaxFrom_of_chain _ (1 + x) hchain
    rw [maxDrawdown, hdd, listMin, hrm]
    apply le_antisymm (foldl_min_le_init _ 0)
    exact le_foldl_min _ 0 0 le_rfl
      (fun y hy => le_of_eq ((dd_self_zero _ y hy).symm))

/-- C8 witness: the bounds theorem instantiated on the concrete series
[0.01, 0.02], a strictly non-negative two-day history. -/
theorem max_drawdown_bounds_witness :
    maxDrawdown [(1 : ℚ)/100, 1/50] ≤ 0
      ∧ (-1 < maxDrawdown [(1 : ℚ)/100, 1/50])
      ∧ maxDrawdown [(1 : ℚ)/100, 1/50] = 0 := by
  have h := max_drawdown_bounds [(1 : ℚ)/100, 1/50] (by simp)
  refine ⟨h.1, h.2.1 ?_, h.2.2 ?_⟩ <;>
    · intro r hr
      rcases List.mem_cons.mp hr with h1 | h1
      · rw [h1]; norm_num
      · rcases List.mem_cons.mp h1 with h2 | h2
        · rw [h2]; norm_num
        · simp at h2

lemma weightedPositive_cons (r : SentimentResult) (rest : List SentimentResult) :
    weightedPositive (r :: rest)
      = (if r.label = .positive then r.confidence else 0) + weightedPositive rest := by
  by_cases hl : r.label = .positive <;>
    simp [weightedPositive, List.filter_cons, hl]

lemma weightedNegative_cons (r : SentimentResult) (rest : List SentimentResult) :
    weightedNegative (r :: rest)
      = (if r.label = .negative then r.confidence else 0) + weightedNegative rest := by
  by_cases hl : r.label = .negative <;>
    simp [weightedNegative, List.filter_cons, hl]

lemma totalConfidence_cons (r : SentimentResult) (rest : List SentimentResult) :
    totalConfidence (r :: rest) = r.confidence + totalConfidence rest := by
  simp [totalConfidence]

lemma sentiment_sums (rs : List SentimentResult)
    (h : ∀ r ∈ rs, 0 ≤ r.confidence) :
    0 ≤ weightedPositive rs ∧ 0 ≤ weightedNegative rs
      ∧ weightedPositive rs + weightedNegative rs ≤ totalConfidence rs
      ∧ 0 ≤ totalConfidence rs := by
  induction rs with
  | nil => simp [weightedPositive, weightedNegative, totalConfidence]
  | cons r rest ih =>
    obtain ⟨ih1, ih2, ih3, ih4⟩ := ih (fun y hy => h y (List.mem_cons_of_mem _ hy))
    have hr := h r (List.mem_cons_self _ _)
    rw [weightedPositive_cons, weightedNegative_cons, totalConfidence_cons]
    split_ifs with h1 h2
    · rw [h1] at h2; cases h2
    · exact ⟨by linarith, by linarith, by linarith, by linarith⟩
    · exact ⟨by linarith, by linarith, by linarith, by linarith⟩
    · exact ⟨by linarith, by linarith, by linarith, by linarith⟩

/-- C5: for a non-empty list of classified headlines with confidences
in [0, 1], the aggregated score equals (positive mass - negative mass)
divided by the total confidence (0 when that total is 0), lies in
[-1, 1], and the dominant label is derived from the score by the 0.15
thresholds rather than from label counts. -/
theorem sentiment_aggregation_score_and_label (t : String)
    (rs : List SentimentResult) (hne : rs ≠ [])
    (hconf : ∀ r ∈ rs, 0 ≤ r.confidence) :
    (0 < totalConfidence rs →
      sentimentScoreOf rs
        = (weightedPositive rs - weightedNegative rs) / totalConfidence rs)
      ∧ (totalConfidence rs = 0 → sentimentScoreOf rs = 0)
      ∧ -1 ≤ sentimentScoreOf rs ∧ sentimentScoreOf rs ≤ 1
      ∧ (aggregateSentiment t rs).dominantSentiment
        = (if 15/100 ≤ sentimentScoreOf rs then SentLabel.positive
           else if sentimentScoreOf rs ≤ -(15/100) then SentLabel.negative
           else SentLabel.neutral) := by
  obtain ⟨h0p, h0n, hle, h0t⟩ := sentiment_sums rs hconf
  obtain ⟨y, ys, rfl⟩ := List.exists_cons_of_ne_nil hne
  refine ⟨?_, ?_, ?_, ?_, ?_⟩
  · intro h
    rw [sentimentScoreOf, if_pos h]
  · intro h
    rw [sentimentScoreOf, if_neg (by rw [h]; exact lt_irrefl 0)]
  · rw [sentimentScoreOf]
    split_ifs with h
    · rw [le_div_iff h]; linarith
    · norm_num
  · rw [sentimentScoreOf]
    split_ifs with h
    · rw [div_le_one h]; linarith
    · norm_num
  · rw [aggregateSentiment]
    simp only [List.isEmpty_cons, Bool.false_eq_true, if_false, classifyByScore]

/-- C5 witness: the aggregation theorem instantiated on the spec's own
example [positive 0.9, negative 0.3, neutral 0.5]; the score is
0.6/1.7 which clears the 0.15 threshold. -/
theorem sentiment_aggregation_score_and_label_witness :
    (0 < totalConfidence sampleSentimentResults →
      sentimentScoreOf sampleSentimentResults
        = (weightedPositive sampleSentimentResults
            - weightedNegative sampleSentimentResults)
            / totalConfidence sampleSentimentResults)
      ∧ (totalConfidence sampleSentimentResults = 0 →
          sentimentScoreOf sampleSentimentResults = 0)
      ∧ -1 ≤ sentimentScoreOf sampleSentimentResults
      ∧ sentimentScoreOf sampleSentimentResults ≤ 1
      ∧ (aggregateSentiment "AAPL" sampleSentimentResults).dominantSentiment
        = (if 15/100 ≤ sentimentScoreOf sampleSentimentResults then SentLabel.positive
           else if sentimentScoreOf sampleSentimentResults ≤ -(15/100) then SentLabel.negative
           else SentLabel.neutral) := by
  refine sentiment_aggregation_score_and_label "AAPL" sampleSentimentResults
    (by simp [sampleSentimentResults]) ?_
  intro r hr
  rcases List.mem_cons.mp hr with h1 | h1
  · rw [h1]; norm_num
  · rcases List.mem_cons.mp h1 with h2 | h2
    · rw [h2]; norm_num
    · rcases List.mem_cons.mp h2 with h3 | h3
      · rw [h3]; norm_num
      · simp at h3

lemma mul_length_le_sum (xs : List ℚ) (a : ℚ) (h : ∀ x ∈ xs, a ≤ x) :
    a * xs.length ≤ xs.sum := by
  induction xs with
  | nil => simp
  | cons y ys ih =>
    have h1 := h y (List.mem_cons_self _ _)
    have h2 := ih (fun x hx => h x (List.mem_cons_of_mem _ hx))
    rw [List.sum_cons, List.length_cons]
    push_cast
    have e : a * ((ys.length : ℚ) + 1) = a * ys.length + a := by ring
    linarith

lemma sum_le_mul_length (xs : List ℚ) (a : ℚ) (h : ∀ x ∈ xs, x ≤ a) :
    xs.sum ≤ a * xs.length := by
  induction xs with
  | nil => simp
  | cons y ys ih =>
    have h1 := h y (List.mem_cons_self _ _)
    have h2 := ih (fun x hx => h x (List.mem_cons_of_mem _ hx))
    rw [List.sum_cons, List.length_cons]
    push_cast
    have e : a * ((ys.length : ℚ) + 1) = a * ys.length + a := by ring
    linarith

lemma mul_length_lt_sum (xs : List ℚ) (a : ℚ) (hall : ∀ x ∈ xs, a ≤ x)
    (hex : ∃ x ∈ xs, a < x) : a * xs.length < xs.sum := by
  induction xs with
  | nil =>
    obtain ⟨w, hw, _⟩ := hex
    simp at hw
  | cons y ys ih =>
    obtain ⟨w, hw, hlt⟩ := hex
    rw [List.sum_cons, List.length_cons]
    push_cast
    have e : a * ((ys.length : ℚ) + 1) = a * ys.length + a := by ring
    rcases List.mem_cons.mp hw with h1 | h1
    · have h2 := mul_length_le_sum ys a (fun x hx => hall x (List.mem_cons_of_mem _ hx))
      rw [h1] at hlt
      linarith
    · have hy := hall y (List.mem_cons_self _ _)
      have h2 := ih (fun x hx => hall x (List.mem_cons_of_mem _ hx)) ⟨w, h1, hlt⟩
      linarith

lemma le_listMean (xs : List ℚ) (a : ℚ) (hne : xs ≠ [])
    (h : ∀ x ∈ xs, a ≤ x) : a ≤ listMean xs := by
  have hn : (0 : ℚ) < xs.length := by
    exact_mod_cast List.length_pos.mpr hne
  rw [listMean, le_div_iff₀ hn]
  exact mul_length_le_sum xs a h

lemma listMean_le (xs : List ℚ) (a : ℚ) (hne : xs ≠ [])
    (h : ∀ x ∈ xs, x ≤ a) : listMean xs ≤ a := by
  have hn : (0 : ℚ) < xs.length := by
    exact_mod_cast List.length_pos.mpr hne
  rw [listMean, div_le_iff₀ hn]
  exact sum_le_mul_length xs a h

lemma lt_listMean (xs : List ℚ) (a : ℚ)
    (hall : ∀ x ∈ xs, a ≤ x) (hex : ∃ x ∈ xs, a < x) : a < listMean xs := by
  have hne : xs ≠ [] := by
    obtain ⟨w, hw, _⟩ := hex
    exact List.ne_nil_of_mem hw
  have hn : (0 : ℚ) < xs.length := by
    exact_mod_cast List.length_pos.mpr hne
  rw [listMean, lt_div_iff₀ hn]
  exact mul_length_lt_sum xs a hall hex

/-- C7: for every confidence level and non-empty simulated
terminal-value array, the computed Expected Shortfall dominates the
computed VaR amount in loss terms, with equality exactly when no
simulated loss strictly exceeds the VaR amount. -/
theorem expected_shortfall_dominates_var
    (portfolioValue confidenceLevel : ℚ) (simulatedValues : List ℚ)
    (hne : simulatedValues ≠ []) :
    varAmount portfolioValue confidenceLevel simulatedValues
        ≤ esAmount portfolioValue confidenceLevel simulatedValues
      ∧ (esAmount portfolioValue confidenceLevel simulatedValues
            = varAmount portfolioValue confidenceLevel simulatedValues
          ↔ ∀ l ∈ lossesOf portfolioValue simulatedValues,
              l ≤ varAmount portfolioValue confidenceLevel simulatedValues) := by
  classical
  set var := varAmount portfolioValue confidenceLevel simulatedValues with hvar
  have htailmem : ∀ l,
      l ∈ tailLosses portfolioValue confidenceLevel simulatedValues
        ↔ l ∈ lossesOf portfolioValue simulatedValues ∧ var ≤ l := by
    intro l
    simp [tailLosses, List.mem_filter, hvar]
  by_cases hT : (tailLosses portfolioValue confidenceLevel simulatedValues).isEmpty
  · have hes : esAmount portfolioValue confidenceLevel simulatedValues = var := by
      rw [esAmount, if_pos hT]
    have hnolarge : ∀ l ∈ lossesOf portfolioValue simulatedValues, l ≤ var := by
      intro l hl
      by_contra hgt
      have hmem : l ∈ tailLosses portfolioValue confidenceLevel simulatedValues :=
        (htailmem l).mpr ⟨hl, le_of_lt (lt_of_not_le hgt)⟩
      rw [List.isEmpty_iff] at hT
      rw [hT] at hmem
      simp at hmem
    exact ⟨le_of_eq hes.symm, ⟨fun _ => hnolarge, fun _ => hes⟩⟩
  · have htne : tailLosses portfolioValue confidenceLevel simulatedValues ≠ [] := by
      intro h
      rw [h] at hT
      simp at hT
    have hge : ∀ l ∈ tailLosses portfolioValue confidenceLevel simulatedValues,
        var ≤ l := fun l hl => ((htailmem l).mp hl).2
    have hes : esAmount portfolioValue confidenceLevel simulatedValues
        = listMean (tailLosses portfolioValue confidenceLevel simulatedValues) := by
      rw [esAmount, if_neg hT]
    have hmain : var ≤ esAmount portfolioValue confidenceLevel simulatedValues := by
      rw [hes]
      exact le_listMean _ var htne hge
    refine ⟨hmain, ⟨?_, ?_⟩⟩
    · intro heq l hl
      by_contra hgt
      have hlt : var < l := lt_of_not_le hgt
      have hmem : l ∈ tailLosses portfolioValue confidenceLevel simulatedValues :=
        (htailmem l).mpr ⟨hl, hlt.le⟩
      have hstrict : var < listMean
          (tailLosses portfolioValue confidenceLevel simulatedValues) :=
        lt_listMean _ var hge ⟨l, hmem, hlt⟩
      rw [hes] at heq
      linarith
    · intro hall
      rw [hes]
      refine le_antisymm ?_ (le_listMean _ var htne hge)
      refine listMean_le _ var htne ?_
      intro l hl
      exact hall l ((htailmem l).mp hl).1

/-- C7 witness: the ordering theorem instantiated on portfolio value
100, confidence level 0.95, and the simulated terminal values
[80, 90, 105]. -/
theorem expected_shortfall_dominates_var_witness :
    varAmount 100 (95/100) [80, 90, 105] ≤ esAmount 100 (95/100) [80, 90, 105]
      ∧ (esAmount 100 (95/100) [80, 90, 105] = varAmount 100 (95/100) [80, 90, 105]
          ↔ ∀ l ∈ lossesOf 100 [80, 90, 105],
              l ≤ varAmount 100 (95/100) [80, 90, 105]) :=
  expected_shortfall_dominates_var 100 (95/100) [80, 90, 105] (by simp)

lemma insertOverwrite_keys (acc1 acc2 : List (String × ℚ)) (k : String) (v w : ℚ)
    (h : acc1.map (·.1) = acc2.map (·.1)) :
    (insertOverwrite acc1 k v).map (·.1) = (insertOverwrite acc2 k w).map (·.1) := by
  have hmap : ∀ (acc : List (String × ℚ)) (u : ℚ),
      (acc.map (fun kv => if kv.1 == k then (k, u) else kv)).map (·.1)
        = acc.map (·.1) := by
    intro acc u
    rw [List.map_map]
    refine List.map_congr_left ?_
    intro kv _
    by_cases hk : (kv.1 == k) = true
    · simp only [Function.comp_apply, hk, if_pos]
      exact (beq_iff_eq.mp hk).symm
    · simp only [Function.comp_apply, hk]
      rw [if_neg (by simp [hk])]
  have hany : ∀ (a1 a2 : List (String × ℚ)), a1.map (·.1) = a2.map (·.1) →
      a1.any (fun kv => kv.1 == k) = a2.any (fun kv => kv.1 == k) := by
    intro a1
    induction a1 with
    | nil =>
      intro a2 ha
      have : a2 = [] := by
        cases a2 with
        | nil => rfl
        | cons b bs => simp at ha
      rw [this]
    | cons a as ih =>
      intro a2 ha
      cases a2 with
      | nil => simp at ha
      | cons b bs =>
        simp only [List.map_cons, List.cons.injEq] at ha
        rw [List.any_cons, List.any_cons, ha.1, ih bs ha.2]
  have hany := hany acc1 acc2 h
  rw [insertOverwrite, insertOverwrite, hany]
  by_cases hc : acc2.any (fun kv => kv.1 == k) = true
  · rw [if_pos hc, if_pos hc, hmap acc1 v, hmap acc2 w, h]
  · rw [if_neg hc, if_neg hc]
    simp only [List.map_append, List.map_cons, List.map_nil, h]

lemma normalizeWeights_keys_scale (ws : List (String × ℚ)) (c : ℚ) :
    (normalizeWeights (ws.map (fun kv => (kv.1, c * kv.2)))).map (·.1)
      = (normalizeWeights ws).map (·.1) := by
  rw [normalizeWeights, normalizeWeights]
  suffices h : ∀ acc1 acc2 : List (String × ℚ),
      acc1.map (·.1) = acc2.map (·.1) →
      ((ws.map (fun kv => (kv.1, c * kv.2))).foldl
          (fun acc kv => insertOverwrite acc (normalizeTicker kv.1) kv.2) acc1).map (·.1)
        = (ws.foldl
          (fun acc kv => insertOverwrite acc (normalizeTicker kv.1) kv.2) acc2).map (·.1) by
    exact h [] [] rfl
  induction ws with
  | nil =>
    intro acc1 acc2 h
    simpa using h
  | cons kv rest ih =>
    intro acc1 acc2 h
    simp only [List.map_cons, List.foldl_cons]
    exact ih _ _ (insertOverwrite_keys _ _ _ _ _ h)

/-- C3 (amended): RiskAnalysisRequest validation checks only that the
normalized weight keys match the normalized ticker list — its outcome
is invariant under rescaling every weight value (so any sum, and with
c = -1 also negative weights, passes whenever the key sets match); the
claim's passing example passes, and the sum/negativity rule exists only
in the separate, unused PortfolioWeights model, which indeed accepts
the 1.0-sum map and rejects the 0.5-sum map. -/
theorem risk_request_validation_ignores_weight_values
    (tickers : List String) (weights : List (String × ℚ)) (c : ℚ) :
    riskRequestWeightsValid tickers (weights.map (fun kv => (kv.1, c * kv.2)))
        = riskRequestWeightsValid tickers weights
      ∧ riskRequestWeightsValid ["AAPL", "MSFT"]
          [("AAPL", 1/2), ("MSFT", 1/2)] = true
      ∧ portfolioWeightsValid [("AAPL", (1 : ℚ)/2), ("MSFT", 1/2)] = true
      ∧ portfolioWeightsValid [("AAPL", (1 : ℚ)/4), ("MSFT", 1/4)] = false := by
  refine ⟨?_, by decide, ?_, ?_⟩
  · rw [riskRequestWeightsValid, riskRequestWeightsValid]
    by_cases hlen : tickers.length < 1 || 30 < tickers.length
    · rw [if_pos hlen, if_pos hlen]
    · rw [if_neg hlen, if_neg hlen]
      simp only [normalizeWeights_keys_scale]
  · simp only [portfolioWeightsValid, List.map_cons, List.map_nil,
      List.sum_cons, List.sum_nil, List.any_cons, List.any_nil,
      Bool.and_eq_true, Bool.not_eq_true, Bool.or_eq_false_iff,
      decide_eq_true_eq, decide_eq_false_iff_not, not_lt]
    norm_num
  · simp only [portfolioWeightsValid, List.map_cons, List.map_nil,
      List.sum_cons, List.sum_nil]
    norm_num

/-- C10 (counterexample): with 253 constant prices the raw 1-year
change is exactly 0, which Python truthiness turns into a reported
null even though 252 observations exist and the claim says the field
must then be present. -/
theorem price_change_omitted_at_zero_change :
    priceChange1yField (List.replicate 253 (some (100 : ℚ))) = none := by
  have hraw : priceChange1yRaw (List.replicate 253 (some (100 : ℚ))) = some 0 := by
    have hlast : (List.replicate 253 (100 : ℚ)).getLastD 0 = 100 :=
      getLastD_replicate 252 100 0
    have hget : (List.replicate 253 (100 : ℚ)).getD 1 0 = 100 :=
      getD_replicate 253 1 100 0 (by omega)
    have hlast2 : (List.replicate 253 (100 : ℚ)).getLast?.getD 0 = 100 := by
      rw [← List.getLastD_eq_getLast?]; exact hlast
    rw [priceChange1yRaw, dropna_replicate]
    simp only [List.length_replicate, lastD]
    norm_num [hlast, hlast2, hget]
  simp only [priceChange1yField]
  rw [hraw]
  norm_num

/-- C10 (amended): the reported 1-year change field is null exactly
when at most 252 non-missing observations exist or the computed change
is exactly 0; otherwise it carries the spec's (last - prior)/prior
value, scaled to percent and rounded to 2 decimals. -/
theorem price_change_field_characterization (prices : List (Option ℚ)) :
    (priceChange1yField prices = none ↔
      (dropna prices).length ≤ 252 ∨ specPriceChange1y prices = 0)
      ∧ (252 < (dropna prices).length → specPriceChange1y prices ≠ 0 →
        priceChange1yField prices
          = some (pyRound 2 (specPriceChange1y prices * 100))) := by
  by_cases h252 : 252 < (dropna prices).length
  · have hraw : priceChange1yRaw prices = some (specPriceChange1y prices) := by
      rw [priceChange1yRaw, specPriceChange1y]
      simp only [if_pos h252]
    constructor
    · simp only [priceChange1yField, hraw]
      by_cases hc : specPriceChange1y prices = 0
      · simp [hc]
      · have hn : ¬ (dropna prices).length ≤ 252 := not_le.mpr h252
        simp [hc, hn]
    · intro _ hc
      simp only [priceChange1yField, hraw]
      rw [if_neg hc]
  · have hraw : priceChange1yRaw prices = none := by
      rw [priceChange1yRaw]
      simp only [if_neg h252]
    constructor
    · simp only [priceChange1yField, hraw]
      simp [le_of_not_lt h252]
    · intro h252' _
      exact absurd h252' h252

/-- C10 witness: the characterization applied to 253 prices of 100
followed by one price of 200 — 254 observations, a 100% change, and
the field present with that rounded percent value. -/
theorem price_change_field_characterization_witness :
    252 < (dropna (List.replicate 253 (some (100 : ℚ)) ++ [some 200])).length
      ∧ specPriceChange1y (List.replicate 253 (some (100 : ℚ)) ++ [some 200]) ≠ 0
      ∧ priceChange1yField (List.replicate 253 (some (100 : ℚ)) ++ [some 200])
        = some (pyRound 2
            (specPriceChange1y (List.replicate 253 (some (100 : ℚ)) ++ [some 200]) * 100)) := by
  have hd : dropna (List.replicate 253 (some (100 : ℚ)) ++ [some 200])
      = List.replicate 253 (100 : ℚ) ++ [200] := by
    simp only [dropna, List.filterMap_append]
    rw [show List.filterMap id (List.replicate 253 (some (100 : ℚ)))
        = List.replicate 253 (100 : ℚ) from dropna_replicate 253 100]
    rfl
  have hlen : (dropna (List.replicate 253 (some (100 : ℚ)) ++ [some 200])).length
      = 254 := by
    rw [hd, List.length_append, List.length_replicate]
    decide
  have hspec : specPriceChange1y (List.replicate 253 (some (100 : ℚ)) ++ [some 200])
      = 1 := by
    have hlast : lastD (List.replicate 253 (100 : ℚ) ++ [200]) 0 = 200 := by
      rw [lastD, List.getLastD_concat]
    have hgd : (List.replicate 253 (100 : ℚ) ++ [200]).getD 2 0 = 100 := by
      rw [List.getD_append _ _ _ _ (by rw [List.length_replicate]; omega)]
      exact getD_replicate 253 2 100 0 (by omega)
    have hidx : (List.replicate 253 (100 : ℚ) ++ [200]).length - 252 = 2 := by
      rw [List.length_append, List.length_replicate]
      decide
    rw [specPriceChange1y]
    simp only [hd]
    rw [hidx, hlast, hgd]
    norm_num
  have h1 : 252 < (dropna (List.replicate 253 (some (100 : ℚ)) ++ [some 200])).length := by
    rw [hlen]; omega
  have h2 : specPriceChange1y (List.replicate 253 (some (100 : ℚ)) ++ [some 200]) ≠ 0 := by
    rw [hspec]; norm_num
  exact ⟨h1, h2,
    (price_change_field_characterization
      (List.replicate 253 (some (100 : ℚ)) ++ [some 200])).2 h1 h2⟩

lemma prepareViews_objective (log10q : ℚ → ℚ) (req : OptimizationRequest)
    (sent : Option (List (String × TickerSentimentSummary))) (o : String) :
    prepareViews log10q { req with objective := o } sent
      = prepareViews log10q req sent := rfl

lemma dispatch_fallback (lib : EFLib) (mu : MuT) (cov : CovT) (bounds : ℚ × ℚ)
    (rfr : ℚ) (tR tV : Option ℚ) (obj : String)
    (h1 : obj ≠ "max_sharpe") (h2 : obj ≠ "min_volatility")
    (h3 : obj ≠ "efficient_return") (h4 : obj ≠ "efficient_risk") :
    optimizeDispatch lib mu cov obj bounds rfr tR tV
      = optimizeDispatch lib mu cov "max_sharpe" bounds rfr tR tV := by
  rw [optimizeDispatch, optimizeDispatch]
  have e1 : (obj == "max_sharpe") = false := beq_eq_false_iff_ne.mpr h1
  have e2 : (obj == "min_volatility") = false := beq_eq_false_iff_ne.mpr h2
  have e3 : (obj == "efficient_return") = false := beq_eq_false_iff_ne.mpr h3
  have e4 : (obj == "efficient_risk") = false := beq_eq_false_iff_ne.mpr h4
  simp only [e1, e2, e3, e4, Bool.false_and, Bool.false_eq_true, if_false,
    beq_self_eq_true, if_true]

lemma optimizePortfolio_objectiveUsed (lib : EFLib) (log10q : ℚ → ℚ)
    (blR : CovT → List (String × ℚ) → ℚ → List ℚ → MuT → Option MuT)
    (mu : MuT) (cov : CovT) (req : OptimizationRequest)
    (sent : Option (List (String × TickerSentimentSummary)))
    (r : OptimizationResponse)
    (h : optimizePortfolio lib log10q blR mu cov req sent = some r) :
    r.objectiveUsed = req.objective := by
  rw [optimizePortfolio] at h
  split at h
  · exact Option.noConfusion h
  · rw [← Option.some.inj h]

/-- C6 (counterexample): with a concrete solver surface, the response
for the unrecognized objective "max_risk" is NOT equal to the response
for "max_sharpe" on the same inputs, because the echoed objective_used
field reports the requested string verbatim. -/
theorem unknown_objective_response_not_identical :
    optimizePortfolio stubLib id (fun _ _ _ _ _ => none) [] []
        (stubRequest "max_risk") none
      ≠ optimizePortfolio stubLib id (fun _ _ _ _ _ => none) [] []
        (stubRequest "max_sharpe") none := by
  intro h
  have e1 : ∃ r1, optimizePortfolio stubLib id (fun _ _ _ _ _ => none) [] []
      (stubRequest "max_risk") none = some r1 := ⟨_, rfl⟩
  have e2 : ∃ r2, optimizePortfolio stubLib id (fun _ _ _ _ _ => none) [] []
      (stubRequest "max_sharpe") none = some r2 := ⟨_, rfl⟩
  obtain ⟨r1, hr1⟩ := e1
  obtain ⟨r2, hr2⟩ := e2
  have g1 := optimizePortfolio_objectiveUsed _ _ _ _ _ _ _ _ hr1
  have g2 := optimizePortfolio_objectiveUsed _ _ _ _ _ _ _ _ hr2
  rw [hr1, hr2] at h
  rw [Option.some.inj h] at g1
  rw [g2] at g1
  exact absurd g1 (by decide)

/-- C6 (amended): an unrecognized objective string takes the final else
branch of _optimize and solves max_sharpe, so the whole response —
weights, allocations, metrics, Black-Litterman parameters, efficient
frontier, flags — matches the max_sharpe response except that the
echoed objective_used field carries the requested string verbatim. -/
theorem unknown_objective_falls_back_to_max_sharpe (lib : EFLib)
    (log10q : ℚ → ℚ)
    (blR : CovT → List (String × ℚ) → ℚ → List ℚ → MuT → Option MuT)
    (mu : MuT) (cov : CovT) (request : OptimizationRequest)
    (sent : Option (List (String × TickerSentimentSummary)))
    (h1 : request.objective ≠ "max_sharpe")
    (h2 : request.objective ≠ "min_volatility")
    (h3 : request.objective ≠ "efficient_return")
    (h4 : request.objective ≠ "efficient_risk") :
    optimizePortfolio lib log10q blR mu cov request sent
      = (optimizePortfolio lib log10q blR mu cov
          { request with objective := "max_sharpe" } sent).map
          (fun r => { r with objectiveUsed := request.objective }) := by
  rw [optimizePortfolio, optimizePortfolio,
    prepareViews_objective log10q request sent "max_sharpe"]
  dsimp only
  rw [dispatch_fallback lib _ _ _ _ _ _ _ h1 h2 h3 h4]
  split
  · rfl
  · rfl

/-- C6 witness: the fallback theorem instantiated on the stub solver,
empty price-history oracles, and the concrete request with objective
"max_risk". -/
theorem unknown_objective_falls_back_to_max_sharpe_witness :
    optimizePortfolio stubLib id (fun _ _ _ _ _ => none) [] []
        (stubRequest "max_risk") none
      = (optimizePortfolio stubLib id (fun _ _ _ _ _ => none) [] []
          { stubRequest "max_risk" with objective := "max_sharpe" } none).map
          (fun r => { r with objectiveUsed := (stubRequest "max_risk").objective }) :=
  unknown_objective_falls_back_to_max_sharpe stubLib id (fun _ _ _ _ _ => none)
    [] [] (stubRequest "max_risk") none
    (by decide) (by decide) (by decide) (by decide)

end SmartAllocator
